import Mathlib

/-! Formal model of the VWAP scalper decision engine: the incremental VWAP
calculator, the indicator library, the risk ledger, the strategy state
machine and the deterministic replay driver, shallowly embedded over exact
rational arithmetic.  JavaScript numbers are modelled as rationals,
timestamps as integers counting milliseconds, and JavaScript Map objects as
association lists with unique keys.  Logging side effects are modelled as an
explicit list of emitted trade events; local calendar time is modelled as
UTC. -/

set_option maxHeartbeats 4000000
set_option maxRecDepth 100000

attribute [local semireducible] Rat.mul Rat.add Rat.inv Rat.sub

namespace Scalper

/-! Association lists standing for JavaScript Map objects.  The set
operation replaces the entry in place (keeping insertion order) or appends
a fresh entry at the end, exactly as Map.set does; delete removes the entry
of the key. -/

def mlookup {α : Type} : List (String × α) → String → Option α
  | [], _ => none
  | p :: rest, k => if p.1 = k then some p.2 else mlookup rest k

def mset {α : Type} : List (String × α) → String → α → List (String × α)
  | [], k, v => [(k, v)]
  | p :: rest, k, v => if p.1 = k then (k, v) :: rest else p :: mset rest k v

def mdelete {α : Type} : List (String × α) → String → List (String × α)
  | [], _ => []
  | p :: rest, k => if p.1 = k then mdelete rest k else p :: mdelete rest k

theorem mlookup_mset_self {α : Type} (l : List (String × α)) (k : String) (v : α) :
    mlookup (mset l k v) k = some v := by
  induction l with
  | nil => simp [mset, mlookup]
  | cons p rest ih =>
      by_cases h : p.1 = k
      · simp [mset, mlookup, h]
      · simp [mset, mlookup, h, ih]

theorem mlookup_mset_ne {α : Type} (l : List (String × α)) (k k' : String) (v : α)
    (h : k' ≠ k) : mlookup (mset l k v) k' = mlookup l k' := by
  induction l with
  | nil => simp [mset, mlookup, Ne.symm h]
  | cons p rest ih =>
      by_cases hp : p.1 = k
      · simp [mset, mlookup, hp, Ne.symm h]
      · by_cases hp' : p.1 = k'
        · simp [mset, mlookup, hp, hp', h]
        · simp [mset, mlookup, hp, hp', ih]

theorem mlookup_mdelete_self {α : Type} (l : List (String × α)) (k : String) :
    mlookup (mdelete l k) k = none := by
  induction l with
  | nil => simp [mdelete, mlookup]
  | cons p rest ih =>
      by_cases h : p.1 = k
      · simp [mdelete, h, ih]
      · simp [mdelete, mlookup, h, ih]

theorem mlookup_mdelete_ne {α : Type} (l : List (String × α)) (k k' : String)
    (h : k' ≠ k) : mlookup (mdelete l k) k' = mlookup l k' := by
  induction l with
  | nil => simp [mdelete]
  | cons p rest ih =>
      by_cases hp : p.1 = k
      · simp [mdelete, mlookup, hp, Ne.symm h, ih]
      · simp [mdelete, mlookup, hp, ih]

/-! JavaScript truthiness helpers: `x || d` yields `d` when `x` is absent
or zero. -/

def qOr (x d : ℚ) : ℚ := if x = 0 then d else x

def qOrDefault (o : Option ℚ) (d : ℚ) : ℚ :=
  match o with
  | some x => if x = 0 then d else x
  | none => d

def natOrDefault (o : Option ℕ) (d : ℕ) : ℕ :=
  match o with
  | some x => if x = 0 then d else x
  | none => d

def qTruthy (o : Option ℚ) : Bool :=
  match o with
  | some x => decide (x ≠ 0)
  | none => false

/-! The VWAP engine (source file vwap.ts).  A sample stores the wall clock
timestamp Date.now() at insertion; the `vwap` field stores the running VWAP
the moment the sample was added, when defined. -/

structure VWAPData where
  price : ℚ
  high : ℚ
  low : ℚ
  volume : ℚ
  timestamp : ℤ
  vwap : Option ℚ
deriving DecidableEq

structure VWAPState where
  period : ℕ
  dataPoints : List VWAPData
  cumulativePriceVolume : ℚ
  cumulativeVolume : ℚ
deriving DecidableEq

def createVWAPState (period : ℕ) : VWAPState :=
  { period := period, dataPoints := [], cumulativePriceVolume := 0, cumulativeVolume := 0 }

/-- The sample appended by updateVWAP: high and low default to price when
falsy, the timestamp records Date.now(), and the vwap field stores the
running VWAP including this sample when already defined. -/
def freshPoint (state : VWAPState) (price volume : ℚ) (high low : Option ℚ)
    (nowTs : ℤ) : VWAPData :=
  { price := price, high := qOrDefault high price, low := qOrDefault low price,
    volume := volume, timestamp := nowTs,
    vwap :=
      if 0 < state.cumulativeVolume then
        some ((state.cumulativePriceVolume + price * volume) /
              (state.cumulativeVolume + volume))
      else none }

def updateVWAP (state : VWAPState) (price volume : ℚ) (high low : Option ℚ)
    (nowTs : ℤ) : VWAPState :=
  let pt := freshPoint state price volume high low nowTs
  let newPV := state.cumulativePriceVolume + price * volume
  let newV := state.cumulativeVolume + volume
  if 0 < state.period ∧ state.period < state.dataPoints.length + 1 then
    match state.dataPoints with
    | [] =>
        { state with dataPoints := [], cumulativePriceVolume := newPV - pt.price * pt.volume, cumulativeVolume := newV - pt.volume }
    | removed :: rest =>
        { state with dataPoints := rest ++ [pt], cumulativePriceVolume := newPV - removed.price * removed.volume, cumulativeVolume := newV - removed.volume }
  else
    { state with dataPoints := state.dataPoints ++ [pt], cumulativePriceVolume := newPV, cumulativeVolume := newV }

def getVWAP (state : VWAPState) : Option ℚ :=
  if state.cumulativeVolume = 0 then none
  else if 0 < state.period ∧ state.dataPoints.length < state.period then none
  else some (state.cumulativePriceVolume / state.cumulativeVolume)

/-! The indicator library (source file utils/indicators.ts).  The true range
reads the previous close through (prev as any).close, a field VWAPData does
not have, so the fallback prev.price is always used; high and low fall back
to price when falsy. -/

def truePairRange (current prev : VWAPData) : ℚ :=
  let high := qOr current.high current.price
  let low := qOr current.low current.price
  let prevClose := prev.price
  max (high - low) (max |high - prevClose| |low - prevClose|)

def calculateATR (data : List VWAPData) (period : ℕ := 14) : Option ℚ :=
  if data.length < period + 1 then none
  else
    let relevantData := data.drop (data.length - (period + 1))
    let trSum := ((relevantData.drop 1).zip relevantData).foldl
      (fun s p => s + truePairRange p.1 p.2) 0
    some (trSum / (period : ℚ))

def calculateVWAPSlope (currentVWAP : ℚ) (historicalVWAP : List ℚ)
    (lookback : ℕ := 5) : ℚ :=
  if historicalVWAP.length < lookback then 0
  else currentVWAP - historicalVWAP.getD (historicalVWAP.length - lookback) 0

def isChoppy (prices vwaps : List ℚ) (period : ℕ := 20) (threshold : ℚ := 3) : Bool :=
  if prices.length < period ∨ vwaps.length < period then false
  else
    let recentPrices := prices.drop (prices.length - period)
    let recentVWAPs := vwaps.drop (vwaps.length - period)
    let wasAbove := decide (recentPrices.getD 0 0 > recentVWAPs.getD 0 0)
    let res := ((recentPrices.drop 1).zip (recentVWAPs.drop 1)).foldl
      (fun (acc : ℕ × Bool) pv =>
        let isAbove := decide (pv.1 > pv.2)
        if isAbove ≠ acc.2 then (acc.1 + 1, isAbove) else acc)
      (0, wasAbove)
    decide ((res.1 : ℚ) ≥ threshold)

def calculateRSI (prices : List ℚ) (period : ℕ := 14) : Option ℚ :=
  if prices.length < period + 1 then none
  else
    let changes := ((prices.drop 1).zip prices).map (fun p => p.1 - p.2)
    let initial := changes.take period
    let gains := (initial.map (fun c => if c > 0 then c else 0)).sum
    let losses := (initial.map (fun c => if c > 0 then 0 else -c)).sum
    let avgGain0 := gains / (period : ℚ)
    let avgLoss0 := losses / (period : ℚ)
    let rest := changes.drop period
    let smoothed := rest.foldl
      (fun (a : ℚ × ℚ) c =>
        let gain := if c > 0 then c else 0
        let loss := if c < 0 then -c else 0
        ((a.1 * ((period : ℚ) - 1) + gain) / (period : ℚ),
         (a.2 * ((period : ℚ) - 1) + loss) / (period : ℚ)))
      (avgGain0, avgLoss0)
    if smoothed.2 = 0 then some 100
    else some (100 - 100 / (1 + smoothed.1 / smoothed.2))

/-! The validated configuration object consumed by the decision engine
(source file config.ts).  Only the fields the engine reads are modelled;
schedule start and end times are stored as the hour and minute numbers the
source parses out of the HH:MM strings, and optional fields keep their
JavaScript truthiness semantics at every use site. -/

structure ScheduleConfig where
  startHour : ℤ
  startMin : ℤ
  endHour : ℤ
  endMin : ℤ
deriving DecidableEq

structure VWAPConfig where
  period : ℕ
  entry_threshold : ℚ
  require_confirmation : Option Bool
deriving DecidableEq

structure FiltersConfig where
  min_volume_mult : ℚ
  chop_threshold : ℚ
  rsi_period : Option ℕ
  rsi_oversold : Option ℚ
  rsi_overbought : Option ℚ
  min_atr_pct : Option ℚ
deriving DecidableEq

structure PositionConfig where
  size : ℤ
  sizingIsRiskPct : Bool
  max_risk_pct : Option ℚ
  max_positions : ℕ
deriving DecidableEq

structure RiskConfig where
  stop_loss_pct : ℚ
  take_profit_pct : ℚ
  max_daily_loss : ℚ
  max_hold_seconds : Option ℚ
  trailing_stop : Bool
  trailing_stop_pct : ℚ
  max_trades_per_day : ℕ
  max_losses_per_day : ℕ
  cooldown_minutes : ℚ
deriving DecidableEq

structure StrategyConfigPart where
  vwap : VWAPConfig
  filters : FiltersConfig
  position : PositionConfig
  risk : RiskConfig
deriving DecidableEq

structure Config where
  schedule : ScheduleConfig
  strategy : StrategyConfigPart
  initial_capital : Option ℚ
deriving DecidableEq

/-! The risk ledger (source file risk-manager.ts).  Local midnights are
modelled as UTC midnights; one day is 86400000 milliseconds. -/

def dayMs : ℤ := 86400000

/-- Next local midnight strictly after the given time, as computed by
setDate(getDate()+1) followed by setHours(0,0,0,0). -/
def getNextResetTime (fromTime : ℤ) : ℤ :=
  (fromTime.fdiv dayMs + 1) * dayMs

structure PositionInfo where
  symbol : String
  entryPrice : ℚ
  quantity : ℤ
  entryTime : ℤ
deriving DecidableEq

structure RiskState where
  config : Config
  dailyPnL : ℚ
  currentBalance : ℚ
  positions : List (String × PositionInfo)
  dailyResetTime : ℤ
  tradesToday : ℕ
  lossesToday : ℕ
  lastLossTime : Option ℤ
deriving DecidableEq

def createRiskState (config : Config) (startTime : ℤ) : RiskState :=
  { config := config, dailyPnL := 0,
    currentBalance := qOrDefault config.initial_capital 10000,
    positions := [], dailyResetTime := getNextResetTime startTime,
    tradesToday := 0, lossesToday := 0, lastLossTime := none }

/-- Cooldown test of canOpenPosition: the source guards it with the truthy
check if (state.lastLossTime), so a zero timestamp disables the gate. -/
def cooldownActive (state : RiskState) (currentTime : ℤ) : Bool :=
  match state.lastLossTime with
  | none => false
  | some t =>
      decide (t ≠ 0) &&
      decide (((currentTime - t : ℤ) : ℚ) / 60000 <
              state.config.strategy.risk.cooldown_minutes)

def canOpenPosition (state : RiskState) (currentTime : ℤ) : Bool :=
  if state.positions.length ≥ state.config.strategy.position.max_positions then false
  else if state.tradesToday ≥ state.config.strategy.risk.max_trades_per_day then false
  else if state.lossesToday ≥ state.config.strategy.risk.max_losses_per_day then false
  else if cooldownActive state currentTime then false
  else if state.dailyPnL ≤ -state.config.strategy.risk.max_daily_loss then false
  else true

/-- Reasons logged by canOpenPosition, one per rejecting gate, in the order
the source checks them. -/
inductive RejectReason where
  | maxPositions
  | maxDailyTrades
  | maxDailyLosses
  | cooldown
  | dailyLossLimit
deriving DecidableEq

/-- Which gate of canOpenPosition rejects first, mirroring the sequential
if chain of the source (the rejection reason surfaced to observability). -/
def canOpenReason (state : RiskState) (currentTime : ℤ) : Option RejectReason :=
  if state.positions.length ≥ state.config.strategy.position.max_positions then some .maxPositions
  else if state.tradesToday ≥ state.config.strategy.risk.max_trades_per_day then some .maxDailyTrades
  else if state.lossesToday ≥ state.config.strategy.risk.max_losses_per_day then some .maxDailyLosses
  else if cooldownActive state currentTime then some .cooldown
  else if state.dailyPnL ≤ -state.config.strategy.risk.max_daily_loss then some .dailyLossLimit
  else none

def recordPosition (state : RiskState) (symbol : String) (entryPrice : ℚ)
    (quantity : ℤ) (currentTime : ℤ) : RiskState :=
  { state with positions := mset state.positions symbol { symbol := symbol, entryPrice := entryPrice, quantity := quantity, entryTime := currentTime } }

def closePosition (state : RiskState) (symbol : String) (pnl : ℚ)
    (currentTime : ℤ) : RiskState :=
  let isLoss := pnl < 0
  { state with
    positions := mdelete state.positions symbol,
    dailyPnL := state.dailyPnL + pnl,
    currentBalance := state.currentBalance + pnl,
    tradesToday := state.tradesToday + 1,
    lossesToday := if isLoss then state.lossesToday + 1 else state.lossesToday,
    lastLossTime := if isLoss then some currentTime else state.lastLossTime }

/-- Reset used on the live path; the source computes the next reset time
from the wall clock Date.now(), passed here explicitly. -/
def resetDailyPnL (state : RiskState) (nowWallClock : ℤ) : RiskState :=
  { state with dailyPnL := 0, dailyResetTime := getNextResetTime nowWallClock, tradesToday := 0, lossesToday := 0, lastLossTime := none }

/-- Reset invoked once per processed bar by the replay driver.  Unlike
resetDailyPnL it does not touch lastLossTime. -/
def checkDailyReset (state : RiskState) (currentTime : ℤ) : RiskState :=
  if currentTime < state.dailyResetTime then state
  else
    { state with dailyPnL := 0, tradesToday := 0, lossesToday := 0, dailyResetTime := getNextResetTime currentTime }

/-! The strategy engine (source file strategy.ts). -/

inductive Side where
  | long
  | short
deriving DecidableEq

structure Position where
  symbol : String
  side : Side
  entryPrice : ℚ
  quantity : ℤ
  entryTime : ℤ
  stopLoss : ℚ
  takeProfit : ℚ
  trailingStop : Option ℚ
deriving DecidableEq

inductive SignalType where
  | potentialLong
  | potentialShort
deriving DecidableEq

structure PendingSignal where
  type : SignalType
  triggerCandleTime : ℤ
  triggerPrice : ℚ
deriving DecidableEq

structure StrategyState where
  config : Config
  positions : List (String × Position)
  pendingSignals : List (String × PendingSignal)
deriving DecidableEq

def createStrategyState (config : Config) : StrategyState :=
  { config := config, positions := [], pendingSignals := [] }

/-- Entries the source writes to the structured trade log, modelled as
explicit output events. -/
inductive TradeEvent where
  | enterLong (symbol : String) (price : ℚ) (quantity : ℤ) (stopLoss takeProfit : ℚ) (timestamp : ℤ)
  | enterShort (symbol : String) (price : ℚ) (quantity : ℤ) (stopLoss takeProfit : ℚ) (timestamp : ℤ)
  | exitTrade (symbol : String) (side : Side) (entryPrice exitPrice : ℚ) (quantity : ℤ) (pnl : ℚ) (reason : String) (timestamp : ℤ)
deriving DecidableEq

def calculatePnL (position : Position) (currentPrice : ℚ) : ℚ :=
  match position.side with
  | .long => (currentPrice - position.entryPrice) * (position.quantity : ℚ)
  | .short => (position.entryPrice - currentPrice) * (position.quantity : ℚ)

def sizedQuantity (config : Config) (balance : ℚ) (entryPrice : ℚ) : ℤ :=
  let q0 := config.strategy.position.size
  let quantity :=
    if config.strategy.position.sizingIsRiskPct ∧ qTruthy config.strategy.position.max_risk_pct then
      let riskAmount := balance * (config.strategy.position.max_risk_pct.getD 0)
      let riskPerShare := entryPrice * config.strategy.risk.stop_loss_pct
      if 0 < riskPerShare then ⌊riskAmount / riskPerShare⌋ else q0
    else q0
  if quantity < 1 then 1 else quantity

def enterLongPosition (strategyState : StrategyState) (riskState : RiskState)
    (symbol : String) (entryPrice : ℚ) (currentTime : ℤ) :
    StrategyState × RiskState × List TradeEvent :=
  let config := strategyState.config
  let quantity := sizedQuantity config riskState.currentBalance entryPrice
  let stopLoss := entryPrice * (1 - config.strategy.risk.stop_loss_pct)
  let takeProfit := entryPrice * (1 + config.strategy.risk.take_profit_pct)
  let position : Position :=
    { symbol := symbol, side := .long, entryPrice := entryPrice, quantity := quantity, entryTime := currentTime, stopLoss := stopLoss, takeProfit := takeProfit,
      trailingStop := if config.strategy.risk.trailing_stop then some (entryPrice * (1 - config.strategy.risk.trailing_stop_pct)) else none }
  ({ strategyState with positions := mset strategyState.positions symbol position },
   recordPosition riskState symbol entryPrice quantity currentTime,
   [TradeEvent.enterLong symbol entryPrice quantity stopLoss takeProfit currentTime])

def enterShortPosition (strategyState : StrategyState) (riskState : RiskState)
    (symbol : String) (entryPrice : ℚ) (currentTime : ℤ) :
    StrategyState × RiskState × List TradeEvent :=
  let config := strategyState.config
  let quantity := sizedQuantity config riskState.currentBalance entryPrice
  let stopLoss := entryPrice * (1 + config.strategy.risk.stop_loss_pct)
  let takeProfit := entryPrice * (1 - config.strategy.risk.take_profit_pct)
  let position : Position :=
    { symbol := symbol, side := .short, entryPrice := entryPrice, quantity := quantity, entryTime := currentTime, stopLoss := stopLoss, takeProfit := takeProfit,
      trailingStop := if config.strategy.risk.trailing_stop then some (entryPrice * (1 + config.strategy.risk.trailing_stop_pct)) else none }
  ({ strategyState with positions := mset strategyState.positions symbol position },
   recordPosition riskState symbol entryPrice (-quantity) currentTime,
   [TradeEvent.enterShort symbol entryPrice quantity stopLoss takeProfit currentTime])

def exitPosition (strategyState : StrategyState) (riskState : RiskState)
    (symbol : String) (exitPrice : ℚ) (reason : String) (pnl : ℚ)
    (currentTime : ℤ) : StrategyState × RiskState × List TradeEvent :=
  match mlookup strategyState.positions symbol with
  | none => (strategyState, riskState, [])
  | some position =>
      ({ strategyState with positions := mdelete strategyState.positions symbol },
       closePosition riskState symbol pnl currentTime,
       [TradeEvent.exitTrade symbol position.side position.entryPrice exitPrice position.quantity pnl reason currentTime])

def reasonTimeStop : String := "TIME_STOP"

def reasonStopLoss : String := "STOP_LOSS"

def reasonTakeProfit : String := "TAKE_PROFIT"

def reasonTrailingStop : String := "TRAILING_STOP"

def reasonEodForceExit : String := "EOD_FORCE_EXIT"

/-- Trailing stop management of a long position: ratchet the level upward
only, then exit on a touch; the position map is updated in place when only
the level moved. -/
def manageTrailingLong (strategyState : StrategyState) (riskState : RiskState)
    (symbol : String) (currentPrice : ℚ) (position : Position) (pnl : ℚ)
    (currentTime : ℤ) : StrategyState × RiskState × List TradeEvent :=
  let newTrailing := currentPrice * (1 - strategyState.config.strategy.risk.trailing_stop_pct)
  let changed := decide (newTrailing > position.trailingStop.getD 0)
  let updatedPosition := if changed then { position with trailingStop := some newTrailing } else position
  if currentPrice ≤ updatedPosition.trailingStop.getD 0 then
    exitPosition strategyState riskState symbol currentPrice reasonTrailingStop pnl currentTime
  else if changed then
    ({ strategyState with positions := mset strategyState.positions symbol updatedPosition }, riskState, [])
  else (strategyState, riskState, [])

/-- Trailing stop management of a short position, symmetric downward. -/
def manageTrailingShort (strategyState : StrategyState) (riskState : RiskState)
    (symbol : String) (currentPrice : ℚ) (position : Position) (pnl : ℚ)
    (currentTime : ℤ) : StrategyState × RiskState × List TradeEvent :=
  let newTrailing := currentPrice * (1 + strategyState.config.strategy.risk.trailing_stop_pct)
  let changed := decide (newTrailing < position.trailingStop.getD 0)
  let updatedPosition := if changed then { position with trailingStop := some newTrailing } else position
  if currentPrice ≥ updatedPosition.trailingStop.getD 0 then
    exitPosition strategyState riskState symbol currentPrice reasonTrailingStop pnl currentTime
  else if changed then
    ({ strategyState with positions := mset strategyState.positions symbol updatedPosition }, riskState, [])
  else (strategyState, riskState, [])

def managePosition (strategyState : StrategyState) (riskState : RiskState)
    (symbol : String) (currentPrice : ℚ) (position : Position)
    (currentTime : ℤ) : StrategyState × RiskState × List TradeEvent :=
  let pnl := calculatePnL position currentPrice
  let holdTime : ℚ := ((currentTime - position.entryTime : ℤ) : ℚ) / 1000
  if qTruthy strategyState.config.strategy.risk.max_hold_seconds ∧
      holdTime ≥ strategyState.config.strategy.risk.max_hold_seconds.getD 0 then
    exitPosition strategyState riskState symbol currentPrice reasonTimeStop pnl currentTime
  else if position.side = .long ∧ currentPrice ≤ position.stopLoss then
    exitPosition strategyState riskState symbol currentPrice reasonStopLoss pnl currentTime
  else if position.side = .short ∧ currentPrice ≥ position.stopLoss then
    exitPosition strategyState riskState symbol currentPrice reasonStopLoss pnl currentTime
  else if position.side = .long ∧ currentPrice ≥ position.takeProfit then
    exitPosition strategyState riskState symbol currentPrice reasonTakeProfit pnl currentTime
  else if position.side = .short ∧ currentPrice ≤ position.takeProfit then
    exitPosition strategyState riskState symbol currentPrice reasonTakeProfit pnl currentTime
  else if strategyState.config.strategy.risk.trailing_stop ∧ qTruthy position.trailingStop then
    if position.side = .long then
      manageTrailingLong strategyState riskState symbol currentPrice position pnl currentTime
    else
      manageTrailingShort strategyState riskState symbol currentPrice position pnl currentTime
  else (strategyState, riskState, [])

/-! Time helpers for the session window and the end of day force exit.
JavaScript Date getUTCHours and getUTCMinutes on a millisecond timestamp. -/

def getUTCHours (t : ℤ) : ℤ := (t.fdiv 3600000).emod 24

def getUTCMinutes (t : ℤ) : ℤ := (t.fdiv 60000).emod 60

def beforeSessionStart (config : Config) (t : ℤ) : Bool :=
  let utcStartH := config.schedule.startHour + 5
  let currentH := getUTCHours t
  let currentM := getUTCMinutes t
  decide (currentH < utcStartH ∨ (currentH = utcStartH ∧ currentM < config.schedule.startMin))

def afterSessionEnd (config : Config) (t : ℤ) : Bool :=
  let utcEndH := config.schedule.endHour + 5
  let currentH := getUTCHours t
  let currentM := getUTCMinutes t
  decide (currentH > utcEndH ∨ (currentH = utcEndH ∧ currentM ≥ config.schedule.endMin))

/-- Relative volume filter: with more than twenty retained samples, reject
when the newest volume is below the trailing twenty bar average times the
configured multiplier. -/
def volumeFilterBlocks (config : Config) (vwapState : VWAPState) : Bool :=
  let volumes := vwapState.dataPoints.map (fun d => d.volume)
  if 20 < volumes.length then
    let recentVolumes := volumes.drop (volumes.length - 20)
    let avgVol := recentVolumes.sum / (recentVolumes.length : ℚ)
    let currentVol := volumes.getD (volumes.length - 1) 0
    decide (currentVol < avgVol * config.strategy.filters.min_volume_mult)
  else false

/-- Minimum ATR filter: min_atr_pct defaults to zero through the falsy
check, and a zero setting disables the filter. -/
def atrFilterBlocks (config : Config) (atr : ℚ) (currentPrice : ℚ) : Bool :=
  let minAtrPct := qOrDefault config.strategy.filters.min_atr_pct 0
  decide (0 < minAtrPct) && decide (atr / currentPrice < minAtrPct)

def chopFilterBlocks (config : Config) (vwapState : VWAPState) : Bool :=
  let prices := vwapState.dataPoints.map (fun d => d.price)
  let vwaps := vwapState.dataPoints.map (fun d => qOrDefault d.vwap d.price)
  isChoppy prices vwaps 20 config.strategy.filters.chop_threshold

def checkEntrySignals (strategyState : StrategyState) (riskState : RiskState)
    (symbol : String) (currentPrice vwap vwapSlope atr rsi : ℚ)
    (vwapState : VWAPState) (currentTime : ℤ) :
    StrategyState × RiskState × List TradeEvent :=
  if ¬ canOpenPosition riskState currentTime then (strategyState, riskState, [])
  else if beforeSessionStart strategyState.config currentTime then (strategyState, riskState, [])
  else if afterSessionEnd strategyState.config currentTime then (strategyState, riskState, [])
  else if volumeFilterBlocks strategyState.config vwapState then (strategyState, riskState, [])
  else if atrFilterBlocks strategyState.config atr currentPrice then (strategyState, riskState, [])
  else if chopFilterBlocks strategyState.config vwapState then (strategyState, riskState, [])
  else
    match mlookup strategyState.pendingSignals symbol with
    | some pending =>
        match pending.type with
        | .potentialLong =>
            if currentPrice < vwap then
              ({ strategyState with pendingSignals := mdelete strategyState.pendingSignals symbol }, riskState, [])
            else
              enterLongPosition { strategyState with pendingSignals := mdelete strategyState.pendingSignals symbol } riskState symbol currentPrice currentTime
        | .potentialShort =>
            if currentPrice > vwap then
              ({ strategyState with pendingSignals := mdelete strategyState.pendingSignals symbol }, riskState, [])
            else
              enterShortPosition { strategyState with pendingSignals := mdelete strategyState.pendingSignals symbol } riskState symbol currentPrice currentTime
    | none =>
        let deviation := (currentPrice - vwap) / vwap
        let entryThreshold := strategyState.config.strategy.vwap.entry_threshold
        let rsiOversold := qOrDefault strategyState.config.strategy.filters.rsi_oversold 40
        let rsiOverbought := qOrDefault strategyState.config.strategy.filters.rsi_overbought 60
        if deviation < -entryThreshold ∧ rsi < rsiOversold then
          if strategyState.config.strategy.vwap.require_confirmation = some false then
            enterLongPosition strategyState riskState symbol currentPrice currentTime
          else
            ({ strategyState with pendingSignals := mset strategyState.pendingSignals symbol { type := .potentialLong, triggerCandleTime := currentTime, triggerPrice := currentPrice } }, riskState, [])
        else if deviation > entryThreshold ∧ rsi > rsiOverbought then
          if strategyState.config.strategy.vwap.require_confirmation = some false then
            enterShortPosition strategyState riskState symbol currentPrice currentTime
          else
            ({ strategyState with pendingSignals := mset strategyState.pendingSignals symbol { type := .potentialShort, triggerCandleTime := currentTime, triggerPrice := currentPrice } }, riskState, [])
        else (strategyState, riskState, [])

def evaluateStrategy (strategyState : StrategyState) (riskState : RiskState)
    (symbol : String) (currentPrice vwap : ℚ) (vwapState : VWAPState)
    (currentTime : ℤ) : StrategyState × RiskState × List TradeEvent :=
  let vwapSlope := calculateVWAPSlope vwap (vwapState.dataPoints.map (fun d => qOrDefault d.vwap d.price)) 5
  let atr := calculateATR vwapState.dataPoints 14
  let prices := vwapState.dataPoints.map (fun d => d.price)
  let rsiPeriod := natOrDefault strategyState.config.strategy.filters.rsi_period 14
  let rsi := calculateRSI prices rsiPeriod
  match rsi, atr with
  | some rsiVal, some atrVal =>
      match mlookup strategyState.positions symbol with
      | some position =>
          if 20 ≤ getUTCHours currentTime ∧ 55 ≤ getUTCMinutes currentTime then
            exitPosition strategyState riskState symbol currentPrice reasonEodForceExit (calculatePnL position currentPrice) currentTime
          else
            managePosition strategyState riskState symbol currentPrice position currentTime
      | none =>
          checkEntrySignals strategyState riskState symbol currentPrice vwap vwapSlope atrVal rsiVal vwapState currentTime
  | _, _ => (strategyState, riskState, [])

/-! The replay driver (source file backtest.ts).  Bars carry their decision
fields; the wall clock Date.now(), read once per bar when inserting the
sample into the VWAP window, is supplied by an explicit oracle indexed by
the bar counter. -/

structure Bar where
  timestamp : ℤ
  highPrice : Option ℚ
  lowPrice : Option ℚ
  closePrice : ℚ
  volume : ℚ
deriving DecidableEq

structure TradeRecord where
  symbol : String
  side : Side
  entryPrice : ℚ
  exitPrice : ℚ
  entryTime : ℤ
  exitTime : ℤ
  quantity : ℤ
  pnl : ℚ
  pnlPct : ℚ
  reason : String
deriving DecidableEq

def reasonBacktestExit : String := "Backtest Exit"

/-- Day of month (1 to 31) of a timestamp, with local time modelled as UTC;
mirrors Date.prototype.getDate via the standard civil calendar algorithm. -/
def getDate (t : ℤ) : ℤ :=
  let z := t.fdiv dayMs + 719468
  let era := z.fdiv 146097
  let doe := z - era * 146097
  let yoe := (doe - doe.fdiv 1460 + doe.fdiv 36524 - doe.fdiv 146096).fdiv 365
  let doy := doe - (365 * yoe + yoe.fdiv 4 - yoe.fdiv 100)
  let mp := (5 * doy + 2).fdiv 153
  doy - (153 * mp + 2).fdiv 5 + 1

structure BacktestAccum where
  vwapState : VWAPState
  strategyState : StrategyState
  riskState : RiskState
  trades : List TradeRecord
  peakPnL : ℚ
  maxDrawdown : ℚ
  prevBar : Option Bar
  index : ℕ
deriving DecidableEq

/-- One iteration of the replay loop: daily risk reset, session scoped VWAP
reset on a calendar day change, VWAP update, and, when the VWAP is defined,
one strategy evaluation followed by trade detection by diffing the position
map and the drawdown update. -/
def processBar (config : Config) (symbol : String) (nowTs : ℤ)
    (acc : BacktestAccum) (bar : Bar) : BacktestAccum :=
  let timestamp := bar.timestamp
  let riskState := checkDailyReset acc.riskState timestamp
  let price := bar.closePrice
  let volume := bar.volume
  let vwapState0 :=
    match acc.prevBar with
    | some prev =>
        if getDate prev.timestamp ≠ getDate bar.timestamp ∧ config.strategy.vwap.period = 0 then
          createVWAPState 0
        else acc.vwapState
    | none => acc.vwapState
  let vwapState := updateVWAP vwapState0 price volume bar.highPrice bar.lowPrice nowTs
  match getVWAP vwapState with
  | none =>
      { acc with vwapState := vwapState, riskState := riskState, prevBar := some bar, index := acc.index + 1 }
  | some currentVWAP =>
      let prevPositions := acc.strategyState.positions
      let prevPnL := riskState.dailyPnL
      let evalRes := evaluateStrategy acc.strategyState riskState symbol price currentVWAP vwapState timestamp
      let newStrategyState := evalRes.1
      let newRiskState := evalRes.2.1
      let trades :=
        match mlookup prevPositions symbol, mlookup newStrategyState.positions symbol with
        | some hadPosition, none =>
            let pnlChange := newRiskState.dailyPnL - prevPnL
            acc.trades ++ [{ symbol := symbol, side := hadPosition.side, entryPrice := hadPosition.entryPrice, exitPrice := price, entryTime := hadPosition.entryTime, exitTime := timestamp, quantity := hadPosition.quantity, pnl := pnlChange, pnlPct := pnlChange / (hadPosition.entryPrice * (hadPosition.quantity : ℚ)) * 100, reason := reasonBacktestExit }]
        | _, _ => acc.trades
      let peakPnL := if newRiskState.dailyPnL > acc.peakPnL then newRiskState.dailyPnL else acc.peakPnL
      let currentDrawdown := peakPnL - newRiskState.dailyPnL
      let maxDrawdown := if currentDrawdown > acc.maxDrawdown then currentDrawdown else acc.maxDrawdown
      { vwapState := vwapState, strategyState := newStrategyState, riskState := newRiskState, trades := trades, peakPnL := peakPnL, maxDrawdown := maxDrawdown, prevBar := some bar, index := acc.index + 1 }

def initialAccum (config : Config) (bars : List Bar) (wallClock : ℕ → ℤ) : BacktestAccum :=
  let startTime := ((bars.head?.map (fun b => b.timestamp)).getD (wallClock 0))
  { vwapState := createVWAPState config.strategy.vwap.period,
    strategyState := createStrategyState config,
    riskState := createRiskState config startTime,
    trades := [], peakPnL := 0, maxDrawdown := 0, prevBar := none, index := 0 }

def runBacktestAccum (symbol : String) (bars : List Bar) (config : Config)
    (wallClock : ℕ → ℤ) : BacktestAccum :=
  bars.foldl (fun acc bar => processBar config symbol (wallClock acc.index) acc bar)
    (initialAccum config bars wallClock)

structure BacktestResult where
  totalTrades : ℕ
  winningTrades : ℕ
  losingTrades : ℕ
  totalPnL : ℚ
  winRate : ℚ
  maxDrawdown : ℚ
  trades : List TradeRecord
deriving DecidableEq

def resultOfAccum (final : BacktestAccum) : BacktestResult :=
  let winningTrades := (final.trades.filter (fun t => decide (t.pnl > 0))).length
  let losingTrades := (final.trades.filter (fun t => decide (t.pnl ≤ 0))).length
  { totalTrades := final.trades.length,
    winningTrades := winningTrades,
    losingTrades := losingTrades,
    totalPnL := final.riskState.dailyPnL,
    winRate := if 0 < final.trades.length then (winningTrades : ℚ) / (final.trades.length : ℚ) * 100 else 0,
    maxDrawdown := final.maxDrawdown,
    trades := final.trades }

def runBacktest (symbol : String) (bars : List Bar) (config : Config)
    (wallClock : ℕ → ℤ) : BacktestResult :=
  resultOfAccum (runBacktestAccum symbol bars config wallClock)

/-! Concrete fixtures shared by the claim instances: a session from 09:30
to 15:30 exchange time, session scoped VWAP, a two percent entry threshold,
confirmation disabled, a permissive RSI filter, and the documented risk
limits. -/

def symA : String := "SPY"

def cfgA : Config :=
  { schedule := { startHour := 9, startMin := 30, endHour := 15, endMin := 30 },
    strategy :=
      { vwap := { period := 0, entry_threshold := 1/50, require_confirmation := some false },
        filters := { min_volume_mult := 6/5, chop_threshold := 3, rsi_period := some 14, rsi_oversold := some 100, rsi_overbought := some 60, min_atr_pct := none },
        position := { size := 10, sizingIsRiskPct := false, max_risk_pct := none, max_positions := 1 },
        risk := { stop_loss_pct := 1/100, take_profit_pct := 1/50, max_daily_loss := 50, max_hold_seconds := none, trailing_stop := false, trailing_stop_pct := 1/200, max_trades_per_day := 3, max_losses_per_day := 2, cooldown_minutes := 5 } },
    initial_capital := some 10000 }

/-! Claim C6. -/

/-- C6: closePosition removes the open position entry of the instrument,
adds the realized pnl to dailyPnL and to currentBalance, increments
tradesToday, and exactly when pnl is negative increments lossesToday and
stamps lastLossTime with the close time, leaving both unchanged
otherwise. -/
theorem C6_closePosition_correct (state : RiskState) (symbol : String) (pnl : ℚ) (now : ℤ) :
    (closePosition state symbol pnl now).positions = mdelete state.positions symbol ∧
    mlookup (closePosition state symbol pnl now).positions symbol = none ∧
    (closePosition state symbol pnl now).dailyPnL = state.dailyPnL + pnl ∧
    (closePosition state symbol pnl now).currentBalance = state.currentBalance + pnl ∧
    (closePosition state symbol pnl now).tradesToday = state.tradesToday + 1 ∧
    (closePosition state symbol pnl now).lossesToday =
      (if pnl < 0 then state.lossesToday + 1 else state.lossesToday) ∧
    (closePosition state symbol pnl now).lastLossTime =
      (if pnl < 0 then some now else state.lastLossTime) :=
  ⟨rfl, mlookup_mdelete_self state.positions symbol, rfl, rfl, rfl, rfl, rfl⟩

/-! Claim C7. -/

/-- C7: getVWAP returns none exactly when the cumulative volume is zero or
the period is positive and fewer than period samples are retained; in every
other case it returns cumulativePriceVolume divided by cumulativeVolume,
and whenever it divides, the divisor is nonzero, so the division by zero
branch is unreachable. -/
theorem C7_getVWAP_characterization (s : VWAPState) :
    (getVWAP s = none ↔
      s.cumulativeVolume = 0 ∨ (0 < s.period ∧ s.dataPoints.length < s.period)) ∧
    (∀ q : ℚ, getVWAP s = some q →
      q = s.cumulativePriceVolume / s.cumulativeVolume ∧ s.cumulativeVolume ≠ 0) := by
  unfold getVWAP
  constructor
  · by_cases h1 : s.cumulativeVolume = 0 <;>
      by_cases h2 : 0 < s.period ∧ s.dataPoints.length < s.period <;>
      simp [h1, h2]
  · intro q hq
    by_cases h1 : s.cumulativeVolume = 0 <;>
      by_cases h2 : 0 < s.period ∧ s.dataPoints.length < s.period <;>
      simp [h1, h2] at hq <;> exact ⟨hq.symm, h1⟩

def vwapSampleA : VWAPState :=
  { period := 0, dataPoints := [], cumulativePriceVolume := 6, cumulativeVolume := 3 }

/-- Witness for C7 at a concrete window with nonzero volume. -/
theorem C7_witness :
    (2 : ℚ) = vwapSampleA.cumulativePriceVolume / vwapSampleA.cumulativeVolume ∧
    vwapSampleA.cumulativeVolume ≠ 0 :=
  (C7_getVWAP_characterization vwapSampleA).2 2 (by decide)

/-! Claim C3.  The replay side reset checkDailyReset zeroes dailyPnL and
the two counters and moves dailyResetTime to the next midnight, but unlike
its live path sibling resetDailyPnL it does not clear lastLossTime, so a
cooldown stamped late in one day keeps suppressing entries after the reset. -/

def riskA : RiskState :=
  { config := cfgA, dailyPnL := -20, currentBalance := 9980, positions := [],
    dailyResetTime := 86400000, tradesToday := 2, lossesToday := 1, lastLossTime := some 5 }

/-- C3: at a time reaching dailyResetTime, checkDailyReset zeroes dailyPnL,
tradesToday and lossesToday and recomputes the next midnight, and leaves
the state unchanged before the boundary, but it retains lastLossTime
instead of clearing it to null as the specification demands; the live path
reset resetDailyPnL does clear it, showing the intent. -/
theorem C3_checkDailyReset_keeps_lastLossTime :
    (checkDailyReset riskA 86400000).dailyPnL = 0 ∧
    (checkDailyReset riskA 86400000).tradesToday = 0 ∧
    (checkDailyReset riskA 86400000).lossesToday = 0 ∧
    (checkDailyReset riskA 86400000).dailyResetTime = getNextResetTime 86400000 ∧
    getNextResetTime 86400000 = 172800000 ∧
    (checkDailyReset riskA 86400000).lastLossTime = some 5 ∧
    (resetDailyPnL riskA 86400000).lastLossTime = none ∧
    checkDailyReset riskA 100 = riskA := by decide

/-! Claim C2.  The gates of the claim, written as the specification states
them except that the cooldown gate carries the amendment forced by the
counterexample below: the stamped lastLossTime must be nonzero, because the
source guards the cooldown with the truthy test if (state.lastLossTime). -/

def claimGateFailsB (r : RejectReason) (s : RiskState) (t : ℤ) : Bool :=
  match r with
  | .maxPositions => decide (s.positions.length ≥ s.config.strategy.position.max_positions)
  | .maxDailyTrades => decide (s.tradesToday ≥ s.config.strategy.risk.max_trades_per_day)
  | .maxDailyLosses => decide (s.lossesToday ≥ s.config.strategy.risk.max_losses_per_day)
  | .cooldown =>
      match s.lastLossTime with
      | none => false
      | some tl =>
          decide (tl ≠ 0) &&
          decide (((t - tl : ℤ) : ℚ) / 60000 < s.config.strategy.risk.cooldown_minutes)
  | .dailyLossLimit => decide (s.dailyPnL ≤ -s.config.strategy.risk.max_daily_loss)

/-- Precedence order in which the source evaluates the gates. -/
def gateOrder : List RejectReason :=
  [.maxPositions, .maxDailyTrades, .maxDailyLosses, .cooldown, .dailyLossLimit]

theorem exists_rejectReason {p : RejectReason → Prop} :
    (∃ r, p r) ↔
      p .maxPositions ∨ p .maxDailyTrades ∨ p .maxDailyLosses ∨ p .cooldown ∨ p .dailyLossLimit := by
  constructor
  · rintro ⟨r, hr⟩
    cases r <;> tauto
  · rintro (h | h | h | h | h) <;> exact ⟨_, h⟩

theorem claimGate_cooldown_eq (s : RiskState) (t : ℤ) :
    claimGateFailsB .cooldown s t = cooldownActive s t := rfl

/-- C2 as amended: canOpenPosition is false exactly when one of the five
gates fails, where the cooldown gate requires a nonzero lastLossTime; the
gates are checked in the fixed order position cap, trade cap, loss cap,
cooldown, daily loss cap, and the reason reported is the first failing
gate in that order. -/
theorem C2_canOpen_gates (s : RiskState) (t : ℤ) :
    (canOpenPosition s t = false ↔ ∃ r, claimGateFailsB r s t = true) ∧
    canOpenReason s t = gateOrder.find? (fun r => claimGateFailsB r s t) ∧
    canOpenPosition s t = (canOpenReason s t).isNone := by
  by_cases h1 : s.positions.length ≥ s.config.strategy.position.max_positions <;>
    by_cases h2 : s.tradesToday ≥ s.config.strategy.risk.max_trades_per_day <;>
    by_cases h3 : s.lossesToday ≥ s.config.strategy.risk.max_losses_per_day <;>
    by_cases h4 : cooldownActive s t = true <;>
    by_cases h5 : s.dailyPnL ≤ -s.config.strategy.risk.max_daily_loss <;>
    simp [canOpenPosition, canOpenReason, gateOrder, List.find?, exists_rejectReason,
      claimGateFailsB, cooldownActive, h1, h2, h3, h5] at h4 ⊢ <;>
    simp [h4]

def riskC2 : RiskState :=
  { config := cfgA, dailyPnL := 0, currentBalance := 10000, positions := [],
    dailyResetTime := 86400000, tradesToday := 0, lossesToday := 0, lastLossTime := some 0 }

/-- C2 counterexample: a state whose lastLossTime is the (falsy) timestamp
zero, evaluated at time zero.  The elapsed minutes are strictly below the
configured cooldown, so the claim as stated demands rejection, yet
canOpenPosition returns true because the source skips the cooldown gate on
a falsy lastLossTime. -/
theorem C2_counterexample :
    riskC2.lastLossTime = some 0 ∧
    ((0 - 0 : ℤ) : ℚ) / 60000 < riskC2.config.strategy.risk.cooldown_minutes ∧
    canOpenPosition riskC2 0 = true := by decide

/-! Claim C1: the accumulator invariant of the VWAP window and the rolling
window correctness of getVWAP, over arbitrary update sequences fed from the
freshly created state. -/

structure VWAPUpdate where
  price : ℚ
  volume : ℚ
  high : Option ℚ
  low : Option ℚ
  nowTs : ℤ
deriving DecidableEq

def applyUpdate (s : VWAPState) (u : VWAPUpdate) : VWAPState :=
  updateVWAP s u.price u.volume u.high u.low u.nowTs

def applyUpdates (period : ℕ) (us : List VWAPUpdate) : VWAPState :=
  us.foldl applyUpdate (createVWAPState period)

def vwapInvariant (s : VWAPState) : Prop :=
  s.cumulativePriceVolume = (s.dataPoints.map (fun d => d.price * d.volume)).sum ∧
  s.cumulativeVolume = (s.dataPoints.map (fun d => d.volume)).sum

theorem applyUpdate_invariant (s : VWAPState) (u : VWAPUpdate)
    (h : vwapInvariant s) : vwapInvariant (applyUpdate s u) := by
  obtain ⟨h1, h2⟩ := h
  unfold applyUpdate updateVWAP vwapInvariant
  rcases hdp : s.dataPoints with _ | ⟨d, ds⟩
  · rw [hdp] at h1 h2
    simp only [List.map_nil, List.sum_nil] at h1 h2
    simp only [hdp]
    split_ifs with hc
    · simp only [List.length_nil] at hc
      omega
    · constructor <;> simp [freshPoint, h1, h2]
  · rw [hdp] at h1 h2
    simp only [List.map_cons, List.sum_cons] at h1 h2
    simp only [hdp]
    split_ifs with hc
    · constructor <;>
        simp only [List.map_append, List.sum_append, List.map_cons, List.sum_cons,
          List.map_nil, List.sum_nil, freshPoint, h1, h2] <;> ring
    · constructor <;>
        simp only [List.map_append, List.sum_append, List.map_cons, List.sum_cons,
          List.map_nil, List.sum_nil, freshPoint, h1, h2] <;> ring

theorem applyUpdates_invariant (period : ℕ) (us : List VWAPUpdate) :
    vwapInvariant (applyUpdates period us) := by
  unfold applyUpdates
  have h : ∀ s : VWAPState, vwapInvariant s → vwapInvariant (us.foldl applyUpdate s) := by
    induction us with
    | nil => exact fun s hs => hs
    | cons u rest ih => exact fun s hs => ih _ (applyUpdate_invariant s u hs)
  exact h _ ⟨rfl, rfl⟩

theorem applyUpdate_period (s : VWAPState) (u : VWAPUpdate) :
    (applyUpdate s u).period = s.period := by
  unfold applyUpdate updateVWAP
  rcases hdp : s.dataPoints with _ | ⟨d, ds⟩ <;> simp only [hdp] <;> split_ifs <;> rfl

theorem applyUpdates_period (period : ℕ) (us : List VWAPUpdate) :
    (applyUpdates period us).period = period := by
  unfold applyUpdates
  have h : ∀ s : VWAPState, (us.foldl applyUpdate s).period = s.period := by
    induction us with
    | nil => exact fun s => rfl
    | cons u rest ih => exact fun s => (ih _).trans (applyUpdate_period s u)
  exact h _

def pvOf (d : VWAPData) : ℚ × ℚ := (d.price, d.volume)

def upvOf (u : VWAPUpdate) : ℚ × ℚ := (u.price, u.volume)

theorem applyUpdates_proj (period : ℕ) (hpos : 0 < period) (us : List VWAPUpdate) :
    (applyUpdates period us).dataPoints.map pvOf =
      (us.map upvOf).drop (us.length - period) := by
  induction us using List.reverseRecOn with
  | nil => simp [applyUpdates, createVWAPState]
  | append_singleton us u ih =>
      have hfold : applyUpdates period (us ++ [u]) = applyUpdate (applyUpdates period us) u := by
        unfold applyUpdates
        rw [List.foldl_append]
        rfl
      have hper := applyUpdates_period period us
      set s := applyUpdates period us with hs
      have hlen : s.dataPoints.length = us.length - (us.length - period) := by
        have := congrArg List.length ih
        simpa using this
      rw [hfold]
      unfold applyUpdate updateVWAP
      rcases hdp : s.dataPoints with _ | ⟨d, ds⟩
      · have hn : us.length = 0 := by
          rw [hdp] at hlen
          simp at hlen
          omega
        have hus : us = [] := List.length_eq_zero.mp hn
        subst hus
        simp only [hdp, hper, List.length_nil, List.nil_append, List.map_cons, List.map_nil]
        split_ifs with hc
        · omega
        · simp only [List.map_cons, List.map_nil, List.length_cons, List.length_nil]
          have : 1 - period = 0 := by omega
          simp [this, pvOf, upvOf, freshPoint]
      · rw [hdp] at hlen
        simp only [List.length_cons] at hlen
        have hdslen : ds.length + 1 ≤ period := by omega
        simp only [hdp, hper, List.length_cons]
        split_ifs with hc
        · -- eviction: period = ds.length + 1, hence period ≤ us.length
          have hpeq : period = ds.length + 1 := by omega
          have hnp : period ≤ us.length := by
            by_contra hlt
            push_neg at hlt
            omega
          have htail : ds.map pvOf = (us.map upvOf).drop (us.length - period + 1) := by
            have := congrArg List.tail ih
            simpa [hdp, List.tail_drop] using this
          rw [List.map_append, htail]
          have hdrop : ((us ++ [u]).map upvOf).drop (us.length + 1 - period) =
              ((us.map upvOf).drop (us.length + 1 - period)) ++ [upvOf u] := by
            rw [List.map_append]
            refine List.drop_append_of_le_length ?_
            simp
            omega
          rw [List.length_append]
          simp only [List.length_singleton]
          rw [hdrop]
          have : us.length + 1 - period = us.length - period + 1 := by omega
          rw [this]
          simp [pvOf, upvOf, freshPoint]
        · -- no eviction: period > ds.length + 1, hence us.length < period
          have hnp : us.length < period := by
            by_contra hge
            push_neg at hge
            omega
          have h0 : us.length - period = 0 := by omega
          have h0' : us.length + 1 - period = 0 := by omega
          rw [h0] at ih
          simp only [List.drop_zero] at ih
          rw [List.length_append]
          simp only [List.length_singleton, h0', List.drop_zero, List.map_append,
            List.map_cons, List.map_nil]
          rw [hdp] at ih
          simp only [List.map_cons] at ih
          rw [ih]
          simp [pvOf, upvOf, freshPoint]

theorem applyUpdates_proj_zero (us : List VWAPUpdate) :
    (applyUpdates 0 us).dataPoints.map pvOf = us.map upvOf := by
  induction us using List.reverseRecOn with
  | nil => simp [applyUpdates, createVWAPState]
  | append_singleton us u ih =>
      have hfold : applyUpdates 0 (us ++ [u]) = applyUpdate (applyUpdates 0 us) u := by
        unfold applyUpdates
        rw [List.foldl_append]
        rfl
      have hper := applyUpdates_period 0 us
      rw [hfold]
      unfold applyUpdate updateVWAP
      rw [hper]
      simp only [Nat.lt_irrefl, false_and, if_false]
      rw [List.map_append, ih]
      simp [pvOf, upvOf, freshPoint]

theorem map_price_volume_of_proj {l : List VWAPData} {m : List VWAPUpdate}
    (h : l.map pvOf = m.map upvOf) :
    l.map (fun d => d.price * d.volume) = m.map (fun u => u.price * u.volume) ∧
    l.map (fun d => d.volume) = m.map (fun u => u.volume) := by
  constructor
  · have := congrArg (List.map (fun q : ℚ × ℚ => q.1 * q.2)) h
    simpa [List.map_map, Function.comp, pvOf, upvOf] using this
  · have := congrArg (List.map (fun q : ℚ × ℚ => q.2)) h
    simpa [List.map_map, Function.comp, pvOf, upvOf] using this

/-- C1: for every update sequence, the state reached from createVWAPState
satisfies cumulativePriceVolume equal to the sum of price times volume and
cumulativeVolume equal to the sum of volume over the retained samples; when
the period N is positive and more than N updates have occurred, getVWAP is
the volume weighted average of exactly the last N samples, and with period
zero it is the volume weighted average of all samples ever ingested (in
both cases provided the relevant volume sum is nonzero so that the average
exists). -/
theorem C1_vwap_rolling_window (period : ℕ) (us : List VWAPUpdate) :
    vwapInvariant (applyUpdates period us) ∧
    (0 < period → period < us.length →
      ((us.drop (us.length - period)).map (fun u => u.volume)).sum ≠ 0 →
      getVWAP (applyUpdates period us) =
        some ((((us.drop (us.length - period)).map (fun u => u.price * u.volume)).sum) /
              (((us.drop (us.length - period)).map (fun u => u.volume)).sum))) ∧
    ((us.map (fun u => u.volume)).sum ≠ 0 →
      getVWAP (applyUpdates 0 us) =
        some (((us.map (fun u => u.price * u.volume)).sum) /
              ((us.map (fun u => u.volume)).sum))) := by
  refine ⟨applyUpdates_invariant period us, ?_, ?_⟩
  · intro hpos hlt hvol
    obtain ⟨h1, h2⟩ := applyUpdates_invariant period us
    have hproj := applyUpdates_proj period hpos us
    rw [← List.map_drop] at hproj
    obtain ⟨hp, hv⟩ := map_price_volume_of_proj hproj
    have hlen : (applyUpdates period us).dataPoints.length = period := by
      have := congrArg List.length hproj
      simp only [List.length_map, List.length_drop] at this
      omega
    have hvne : (applyUpdates period us).cumulativeVolume ≠ 0 := by
      rw [h2, hv]
      exact hvol
    unfold getVWAP
    rw [if_neg hvne]
    rw [if_neg (by rw [applyUpdates_period, hlen]; omega)]
    rw [h1, h2, hp, hv]
  · intro hvol
    obtain ⟨h1, h2⟩ := applyUpdates_invariant 0 us
    obtain ⟨hp, hv⟩ := map_price_volume_of_proj (applyUpdates_proj_zero us)
    have hvne : (applyUpdates 0 us).cumulativeVolume ≠ 0 := by
      rw [h2, hv]
      exact hvol
    unfold getVWAP
    rw [if_neg hvne]
    rw [if_neg (by rw [applyUpdates_period]; omega)]
    rw [h1, h2, hp, hv]

def updatesA : List VWAPUpdate :=
  [{ price := 100, volume := 10, high := none, low := none, nowTs := 0 },
   { price := 110, volume := 10, high := none, low := none, nowTs := 0 },
   { price := 120, volume := 10, high := none, low := none, nowTs := 0 }]

/-- Witness for C1: a rolling window of two samples over three updates
yields the volume weighted average 115 of the last two samples, and the
unbounded window yields 110 over all three. -/
theorem C1_witness :
    vwapInvariant (applyUpdates 2 updatesA) ∧
    getVWAP (applyUpdates 2 updatesA) = some 115 ∧
    getVWAP (applyUpdates 0 updatesA) = some 110 := by
  refine ⟨(C1_vwap_rolling_window 2 updatesA).1, ?_, ?_⟩
  · have h := (C1_vwap_rolling_window 2 updatesA).2.1 (by decide) (by decide) (by decide)
    rw [h]
    decide
  · have h := (C1_vwap_rolling_window 0 updatesA).2.2 (by decide)
    rw [h]
    decide

/-! Claim C4: confirmation consumption.  The source checks the pending
signal only after the risk gate, the session window and the volume, ATR
and chop filters, and only when RSI and ATR are defined, so a pending
signal survives any evaluation that returns early; the claim is amended
with the guards under which the confirmation block is reached. -/

def cfgB : Config :=
  { cfgA with strategy := { cfgA.strategy with vwap := { cfgA.strategy.vwap with require_confirmation := some true } } }

def pendingB : PendingSignal :=
  { type := .potentialLong, triggerCandleTime := 54000000, triggerPrice := 99 }

def strategyB : StrategyState :=
  { config := cfgB, positions := [], pendingSignals := [(symA, pendingB)] }

def riskB : RiskState := createRiskState cfgB 54000000

def vsB : VWAPState :=
  applyUpdates 0 [{ price := 100, volume := 1000, high := none, low := none, nowTs := 0 }]

/-- C4 counterexample: a flat state holding a pending long signal, with the
VWAP defined over one retained sample, whose very next evaluateStrategy
call neither enters a position nor discards the signal: the RSI history is
too short, so the evaluation returns the state unchanged and the pending
signal survives this observation. -/
theorem C4_counterexample :
    getVWAP vsB = some 100 ∧
    mlookup strategyB.positions symA = none ∧
    mlookup strategyB.pendingSignals symA = some pendingB ∧
    evaluateStrategy strategyB riskB symA 101 100 vsB 54060000 = (strategyB, riskB, []) := by
  decide

/-- C4 as amended: when the next evaluation for a flat instrument holding a
pending long actually reaches the confirmation check (the risk gate is
open, the time lies in the session window, and the volume, ATR and chop
filters pass), the pending signal is consumed: a price below VWAP discards
it and changes nothing else, and a price at or above VWAP enters a long at
exactly that price and time. -/
theorem C4_pending_consumed (st : StrategyState) (rk : RiskState) (sym : String)
    (price vwap slope atr rsi : ℚ) (vs : VWAPState) (t : ℤ) (ps : PendingSignal)
    (hopen : canOpenPosition rk t = true)
    (hbs : beforeSessionStart st.config t = false)
    (hse : afterSessionEnd st.config t = false)
    (hvol : volumeFilterBlocks st.config vs = false)
    (hatr : atrFilterBlocks st.config atr price = false)
    (hchop : chopFilterBlocks st.config vs = false)
    (hpend : mlookup st.pendingSignals sym = some ps)
    (hlong : ps.type = .potentialLong)
    (hflat : mlookup st.positions sym = none) :
    mlookup (checkEntrySignals st rk sym price vwap slope atr rsi vs t).1.pendingSignals sym = none ∧
    (price < vwap →
      checkEntrySignals st rk sym price vwap slope atr rsi vs t =
        ({ st with pendingSignals := mdelete st.pendingSignals sym }, rk, [])) ∧
    (¬ price < vwap →
      ∃ pos : Position,
        mlookup (checkEntrySignals st rk sym price vwap slope atr rsi vs t).1.positions sym = some pos ∧
        pos.side = .long ∧ pos.entryPrice = price ∧ pos.entryTime = t) := by
  have hck : checkEntrySignals st rk sym price vwap slope atr rsi vs t =
      if price < vwap then
        ({ st with pendingSignals := mdelete st.pendingSignals sym }, rk, [])
      else
        enterLongPosition { st with pendingSignals := mdelete st.pendingSignals sym } rk sym price t := by
    unfold checkEntrySignals
    simp only [hopen, hbs, hse, hvol, hatr, hchop, hpend, hlong, not_true_eq_false,
      Bool.false_eq_true, if_false, ite_false]
  by_cases hpv : price < vwap
  · rw [hck, if_pos hpv]
    exact ⟨mlookup_mdelete_self _ _, fun _ => rfl, fun hcon => absurd hpv hcon⟩
  · rw [hck, if_neg hpv]
    refine ⟨?_, fun hcon => absurd hcon hpv, fun _ => ?_⟩
    · exact mlookup_mdelete_self _ _
    · exact ⟨_, mlookup_mset_self _ _ _, rfl, rfl, rfl⟩

/-- Witness for C4: at a concrete state whose guards all pass, a pending
long with the next price at 101 against a VWAP of 100 enters a long at
price 101. -/
theorem C4_witness :
    ∃ pos : Position,
      mlookup (checkEntrySignals strategyB riskB symA 101 100 0 1 0 vsB 54060000).1.positions symA = some pos ∧
      pos.side = .long ∧ pos.entryPrice = 101 ∧ pos.entryTime = 54060000 :=
  (C4_pending_consumed strategyB riskB symA 101 100 0 1 0 vsB 54060000 pendingB
    (by decide) (by decide) (by decide) (by decide) (by decide) (by decide)
    (by decide) (by decide) (by decide)).2.2 (by decide)

/-! Claim C9: end of day force exit.  The source tests hour at least 20 AND
minute at least 55, so the forced exit fires only during the last five
minutes of each hour from 20:00 UTC onward, not on the whole window after
the 20:55 cutoff, and only when RSI and ATR are defined. -/

def updateHundred : VWAPUpdate :=
  { price := 100, volume := 1000, high := some 100, low := some 100, nowTs := 0 }

def vsC : VWAPState := applyUpdates 0 (List.replicate 15 updateHundred)

def positionC : Position :=
  { symbol := symA, side := .long, entryPrice := 100, quantity := 10, entryTime := 75000000, stopLoss := 50, takeProfit := 200, trailingStop := none }

def strategyC : StrategyState :=
  { config := cfgA, positions := [(symA, positionC)], pendingSignals := [] }

def riskInfoC : PositionInfo :=
  { symbol := symA, entryPrice := 100, quantity := 10, entryTime := 75000000 }

def riskC : RiskState :=
  { config := cfgA, dailyPnL := 0, currentBalance := 10000, positions := [(symA, riskInfoC)], dailyResetTime := 86400000, tradesToday := 0, lossesToday := 0, lastLossTime := none }

/-- C9 counterexample: at 21:00 UTC, a time inside the claimed force exit
window (at or after the 20:55 cutoff, before the end of the day), with an
open position and both indicators defined, evaluateStrategy does not close
the position: the source condition minute at least 55 fails at minute 0, so
the position survives unchanged. -/
theorem C9_counterexample :
    getUTCHours 75600000 = 21 ∧ getUTCMinutes 75600000 = 0 ∧
    (20 * 3600000 + 55 * 60000 : ℤ) ≤ 75600000 % dayMs ∧ (75600000 : ℤ) % dayMs < dayMs ∧
    mlookup strategyC.positions symA = some positionC ∧
    (evaluateStrategy strategyC riskC symA 100 100 vsC 75600000).1 = strategyC ∧
    (evaluateStrategy strategyC riskC symA 100 100 vsC 75600000).2.1 = riskC := by
  decide

/-- C9 as amended: whenever a position is open, RSI and ATR are defined
from the sample history, and the evaluation time has UTC hour at least 20
and UTC minute at least 55, evaluateStrategy closes the position
immediately with reason EOD_FORCE_EXIT, regardless of profit and before
any other exit condition is considered. -/
theorem C9_eod_force_exit (st : StrategyState) (rk : RiskState) (sym : String)
    (price vwap : ℚ) (vs : VWAPState) (t : ℤ) (pos : Position)
    (hpos : mlookup st.positions sym = some pos)
    (hrsi : (calculateRSI (vs.dataPoints.map (fun d => d.price))
      (natOrDefault st.config.strategy.filters.rsi_period 14)).isSome = true)
    (hatr : (calculateATR vs.dataPoints 14).isSome = true)
    (hh : 20 ≤ getUTCHours t) (hm : 55 ≤ getUTCMinutes t) :
    evaluateStrategy st rk sym price vwap vs t =
      ({ st with positions := mdelete st.positions sym },
       closePosition rk sym (calculatePnL pos price) t,
       [TradeEvent.exitTrade sym pos.side pos.entryPrice price pos.quantity (calculatePnL pos price) reasonEodForceExit t]) := by
  obtain ⟨r, hr⟩ := Option.isSome_iff_exists.mp hrsi
  obtain ⟨a, ha⟩ := Option.isSome_iff_exists.mp hatr
  unfold evaluateStrategy
  simp only [hr, ha, hpos]
  rw [if_pos ⟨hh, hm⟩]
  unfold exitPosition
  rw [hpos]

/-- Witness for C9 at 20:55 UTC with a concrete open position. -/
theorem C9_witness :
    evaluateStrategy strategyC riskC symA 100 100 vsC 75300000 =
      ({ strategyC with positions := mdelete strategyC.positions symA },
       closePosition riskC symA (calculatePnL positionC 100) 75300000,
       [TradeEvent.exitTrade symA positionC.side positionC.entryPrice 100 positionC.quantity (calculatePnL positionC 100) reasonEodForceExit 75300000]) :=
  C9_eod_force_exit strategyC riskC symA 100 100 vsC 75300000 positionC
    (by decide) (by decide) (by decide) (by decide) (by decide)

/-! Claim C10: every transition entered through evaluateStrategy keeps the
strategy position map and the risk ledger open position registry in step:
an instrument has a Position exactly when it has a ledger entry. -/

def posAligned (st : StrategyState) (rk : RiskState) : Prop :=
  ∀ sym : String, (mlookup st.positions sym).isSome = (mlookup rk.positions sym).isSome

theorem posAligned_enterLong (st : StrategyState) (rk : RiskState)
    (sym : String) (price : ℚ) (t : ℤ) (h : posAligned st rk) :
    posAligned (enterLongPosition st rk sym price t).1 (enterLongPosition st rk sym price t).2.1 := by
  intro k
  simp only [enterLongPosition, recordPosition]
  by_cases hk : k = sym
  · subst hk
    rw [mlookup_mset_self, mlookup_mset_self]
    rfl
  · rw [mlookup_mset_ne _ _ _ _ hk, mlookup_mset_ne _ _ _ _ hk]
    exact h k

theorem posAligned_enterShort (st : StrategyState) (rk : RiskState)
    (sym : String) (price : ℚ) (t : ℤ) (h : posAligned st rk) :
    posAligned (enterShortPosition st rk sym price t).1 (enterShortPosition st rk sym price t).2.1 := by
  intro k
  simp only [enterShortPosition, recordPosition]
  by_cases hk : k = sym
  · subst hk
    rw [mlookup_mset_self, mlookup_mset_self]
    rfl
  · rw [mlookup_mset_ne _ _ _ _ hk, mlookup_mset_ne _ _ _ _ hk]
    exact h k

theorem posAligned_exit (st : StrategyState) (rk : RiskState) (sym : String)
    (price : ℚ) (reason : String) (pnl : ℚ) (t : ℤ) (h : posAligned st rk) :
    posAligned (exitPosition st rk sym price reason pnl t).1 (exitPosition st rk sym price reason pnl t).2.1 := by
  unfold exitPosition
  rcases hl : mlookup st.positions sym with _ | pos <;> simp only [hl]
  · exact h
  · intro k
    simp only [closePosition]
    by_cases hk : k = sym
    · subst hk
      rw [mlookup_mdelete_self, mlookup_mdelete_self]
      rfl
    · rw [mlookup_mdelete_ne _ _ _ hk, mlookup_mdelete_ne _ _ _ hk]
      exact h k

theorem posAligned_mset_pres (st : StrategyState) (rk : RiskState) (sym : String)
    (p : Position) (h : posAligned st rk)
    (hpres : (mlookup st.positions sym).isSome = true) :
    posAligned { st with positions := mset st.positions sym p } rk := by
  intro k
  by_cases hk : k = sym
  · subst hk
    show (mlookup (mset st.positions k p) k).isSome = _
    rw [mlookup_mset_self, ← h k, hpres]
    rfl
  · show (mlookup (mset st.positions sym p) k).isSome = _
    rw [mlookup_mset_ne _ _ _ _ hk]
    exact h k

theorem posAligned_manageTrailingLong (st : StrategyState) (rk : RiskState)
    (sym : String) (price : ℚ) (pos : Position) (pnl : ℚ) (t : ℤ)
    (h : posAligned st rk) (hpres : (mlookup st.positions sym).isSome = true) :
    posAligned (manageTrailingLong st rk sym price pos pnl t).1
      (manageTrailingLong st rk sym price pos pnl t).2.1 := by
  simp only [manageTrailingLong]
  split_ifs <;>
    first
      | exact posAligned_exit _ _ _ _ _ _ _ h
      | exact posAligned_mset_pres _ _ _ _ h hpres
      | exact h

theorem posAligned_manageTrailingShort (st : StrategyState) (rk : RiskState)
    (sym : String) (price : ℚ) (pos : Position) (pnl : ℚ) (t : ℤ)
    (h : posAligned st rk) (hpres : (mlookup st.positions sym).isSome = true) :
    posAligned (manageTrailingShort st rk sym price pos pnl t).1
      (manageTrailingShort st rk sym price pos pnl t).2.1 := by
  simp only [manageTrailingShort]
  split_ifs <;>
    first
      | exact posAligned_exit _ _ _ _ _ _ _ h
      | exact posAligned_mset_pres _ _ _ _ h hpres
      | exact h

theorem posAligned_manage (st : StrategyState) (rk : RiskState) (sym : String)
    (price : ℚ) (pos : Position) (t : ℤ) (h : posAligned st rk)
    (hpres : (mlookup st.positions sym).isSome = true) :
    posAligned (managePosition st rk sym price pos t).1 (managePosition st rk sym price pos t).2.1 := by
  simp only [managePosition]
  split_ifs with h1 h2 h3 h4 h5 h6 h7
  · exact posAligned_exit _ _ _ _ _ _ _ h
  · exact posAligned_exit _ _ _ _ _ _ _ h
  · exact posAligned_exit _ _ _ _ _ _ _ h
  · exact posAligned_exit _ _ _ _ _ _ _ h
  · exact posAligned_exit _ _ _ _ _ _ _ h
  · exact posAligned_manageTrailingLong _ _ _ _ _ _ _ h hpres
  · exact posAligned_manageTrailingShort _ _ _ _ _ _ _ h hpres
  · exact h

theorem posAligned_checkEntry (st : StrategyState) (rk : RiskState) (sym : String)
    (price vwap slope atr rsi : ℚ) (vs : VWAPState) (t : ℤ) (h : posAligned st rk) :
    posAligned (checkEntrySignals st rk sym price vwap slope atr rsi vs t).1
      (checkEntrySignals st rk sym price vwap slope atr rsi vs t).2.1 := by
  simp only [checkEntrySignals]
  repeat' split
  all_goals
    first
      | exact h
      | exact posAligned_enterLong _ _ _ _ _ h
      | exact posAligned_enterShort _ _ _ _ _ h

/-- C10: evaluateStrategy preserves the correspondence between the
strategy side position map and the risk ledger open position registry:
whenever on entry an instrument holds a Position exactly when it holds a
ledger entry, the returned strategy state and returned ledger satisfy the
same correspondence, because every entry inserts into both maps and every
exit deletes from both maps within the same transition. -/
theorem C10_positions_ledger_aligned (st : StrategyState) (rk : RiskState)
    (sym : String) (price vwap : ℚ) (vs : VWAPState) (t : ℤ)
    (h : posAligned st rk) :
    posAligned (evaluateStrategy st rk sym price vwap vs t).1
      (evaluateStrategy st rk sym price vwap vs t).2.1 := by
  simp only [evaluateStrategy]
  rcases hrsi : calculateRSI (vs.dataPoints.map (fun d => d.price))
      (natOrDefault st.config.strategy.filters.rsi_period 14) with _ | r <;>
    rcases hatr : calculateATR vs.dataPoints 14 with _ | a <;>
    simp only [hrsi, hatr]
  · exact h
  · exact h
  · exact h
  · rcases hpos : mlookup st.positions sym with _ | pos <;> simp only [hpos]
    · exact posAligned_checkEntry _ _ _ _ _ _ _ _ _ _ h
    · split_ifs with he
      · exact posAligned_exit _ _ _ _ _ _ _ h
      · exact posAligned_manage _ _ _ _ _ _ h (by rw [hpos]; rfl)

/-- Witness for C10: the empty strategy state and fresh risk ledger are
aligned, and stay aligned across a concrete evaluation. -/
theorem C10_witness :
    posAligned (createStrategyState cfgA) (createRiskState cfgA 54000000) ∧
    posAligned
      (evaluateStrategy (createStrategyState cfgA) (createRiskState cfgA 54000000) symA 100 100 vsB 54060000).1
      (evaluateStrategy (createStrategyState cfgA) (createRiskState cfgA 54000000) symA 100 100 vsB 54060000).2.1 := by
  have h0 : posAligned (createStrategyState cfgA) (createRiskState cfgA 54000000) :=
    fun _ => rfl
  exact ⟨h0, C10_positions_ledger_aligned _ _ _ _ _ _ _ h0⟩

/-! Claim C5: the end to end replay scenario.  The strategy evaluation is
skipped whenever RSI or ATR is undefined, and the ATR call inside
evaluateStrategy uses the hard coded default period of fourteen, which
needs fifteen retained samples; on the bare five bar sequence of the claim
no evaluation ever reaches the entry logic, so no position opens.  With
eleven extra warm up bars prepended the indicators become defined on the
first 95 bar and the long opens there at price 95. -/

def mkBar (ts : ℤ) (p : ℚ) : Bar :=
  { timestamp := ts, highPrice := some p, lowPrice := some p, closePrice := p, volume := 1000 }

def zeroClock : ℕ → ℤ := fun _ => 0

def barsFive : List Bar :=
  [mkBar 54000000 100, mkBar 54060000 100, mkBar 54120000 100,
   mkBar 54180000 95, mkBar 54240000 95]

/-- C5 counterexample: running the replay driver on exactly the five bars
of the claim, with period zero, entry threshold two percent, confirmation
disabled and the RSI filter permissive, opens no position at all and
records no trade, because ATR (and RSI) stay undefined with only five
samples and every strategy evaluation returns unchanged. -/
theorem C5_counterexample :
    (runBacktestAccum symA barsFive cfgA zeroClock).strategyState.positions = [] ∧
    (runBacktestAccum symA barsFive cfgA zeroClock).trades = [] ∧
    (runBacktest symA barsFive cfgA zeroClock).totalTrades = 0 := by
  decide

def barsWarm : List Bar :=
  [mkBar 54000000 100, mkBar 54060000 100, mkBar 54120000 100,
   mkBar 54180000 100, mkBar 54240000 100, mkBar 54300000 100,
   mkBar 54360000 100, mkBar 54420000 100, mkBar 54480000 100,
   mkBar 54540000 100, mkBar 54600000 100, mkBar 54660000 100,
   mkBar 54720000 100, mkBar 54780000 100,
   mkBar 54840000 95, mkBar 54900000 95]

/-! Claim C8: determinism of the replay driver.  The only wall clock read
on the replay path is the Date.now() stored into each inserted sample, and
no decision ever reads a stored sample timestamp; the randomized debug
logging conditionals guard only logger calls, which carry no state and are
modelled as absent.  Erasing the stored timestamps commutes with every
step, so two runs under different wall clocks produce identical results. -/

def eraseDataTs (d : VWAPData) : VWAPData := { d with timestamp := 0 }

def eraseTs (s : VWAPState) : VWAPState := { s with dataPoints := s.dataPoints.map eraseDataTs }

def eraseAcc (a : BacktestAccum) : BacktestAccum := { a with vwapState := eraseTs a.vwapState }

theorem eraseTs_period (s : VWAPState) : (eraseTs s).period = s.period := rfl

theorem eraseTs_cumPV (s : VWAPState) :
    (eraseTs s).cumulativePriceVolume = s.cumulativePriceVolume := rfl

theorem eraseTs_cumV (s : VWAPState) :
    (eraseTs s).cumulativeVolume = s.cumulativeVolume := rfl

theorem eraseTs_dataPoints (s : VWAPState) :
    (eraseTs s).dataPoints = s.dataPoints.map eraseDataTs := rfl

theorem map_comp_erase {α : Type} (f : VWAPData → α) (hf : ∀ d, f (eraseDataTs d) = f d)
    (l : List VWAPData) : (l.map eraseDataTs).map f = l.map f := by
  induction l with
  | nil => rfl
  | cons d ds ih => simp only [List.map_cons, ih, hf]

theorem getVWAP_erase (s : VWAPState) : getVWAP (eraseTs s) = getVWAP s := by
  unfold getVWAP
  rw [eraseTs_cumV, eraseTs_cumPV, eraseTs_period, eraseTs_dataPoints, List.length_map]

theorem truePairRange_erase (a b : VWAPData) :
    truePairRange (eraseDataTs a) (eraseDataTs b) = truePairRange a b := rfl

theorem calculateATR_erase (l : List VWAPData) (p : ℕ) :
    calculateATR (l.map eraseDataTs) p = calculateATR l p := by
  simp only [calculateATR, List.length_map]
  split_ifs with h
  · rfl
  · congr 1
    rw [← List.map_drop]
    generalize l.drop (l.length - (p + 1)) = m
    rw [← List.map_drop, List.zip_map, List.foldl_map]
    simp only [Prod.map_fst, Prod.map_snd, truePairRange_erase]

theorem volumeFilterBlocks_erase (config : Config) (s : VWAPState) :
    volumeFilterBlocks config (eraseTs s) = volumeFilterBlocks config s := by
  unfold volumeFilterBlocks
  rw [eraseTs_dataPoints, map_comp_erase (fun d => d.volume) (fun _ => rfl)]

theorem chopFilterBlocks_erase (config : Config) (s : VWAPState) :
    chopFilterBlocks config (eraseTs s) = chopFilterBlocks config s := by
  unfold chopFilterBlocks
  rw [eraseTs_dataPoints, map_comp_erase (fun d => d.price) (fun _ => rfl),
    map_comp_erase (fun d => qOrDefault d.vwap d.price) (fun _ => rfl)]

theorem checkEntrySignals_erase (st : StrategyState) (rk : RiskState) (sym : String)
    (price vwap slope atr rsi : ℚ) (vs : VWAPState) (t : ℤ) :
    checkEntrySignals st rk sym price vwap slope atr rsi (eraseTs vs) t =
      checkEntrySignals st rk sym price vwap slope atr rsi vs t := by
  unfold checkEntrySignals
  rw [volumeFilterBlocks_erase, chopFilterBlocks_erase]

theorem evaluateStrategy_erase (st : StrategyState) (rk : RiskState) (sym : String)
    (price vwap : ℚ) (vs : VWAPState) (t : ℤ) :
    evaluateStrategy st rk sym price vwap (eraseTs vs) t =
      evaluateStrategy st rk sym price vwap vs t := by
  simp only [evaluateStrategy, eraseTs_dataPoints,
    map_comp_erase (fun d => qOrDefault d.vwap d.price) (fun _ => rfl),
    map_comp_erase (fun d => d.price) (fun _ => rfl),
    calculateATR_erase, checkEntrySignals_erase]

theorem freshPoint_erase (s : VWAPState) (p v : ℚ) (hi lo : Option ℚ) (ts : ℤ) :
    eraseDataTs (freshPoint s p v hi lo ts) = freshPoint (eraseTs s) p v hi lo 0 := rfl

theorem eraseTs_createVWAPState (n : ℕ) : eraseTs (createVWAPState n) = createVWAPState n := rfl

theorem updateVWAP_erase (s : VWAPState) (p v : ℚ) (hi lo : Option ℚ) (ts : ℤ) :
    eraseTs (updateVWAP s p v hi lo ts) = updateVWAP (eraseTs s) p v hi lo 0 := by
  unfold updateVWAP
  rcases hdp : s.dataPoints with _ | ⟨d, ds⟩
  · have hdp' : (eraseTs s).dataPoints = [] := by
      rw [eraseTs_dataPoints, hdp]
      rfl
    rw [hdp']
    simp only [eraseTs_period, List.length_nil]
    split_ifs with hc
    · simp [eraseTs, freshPoint, eraseDataTs]
    · simp [eraseTs, freshPoint, eraseDataTs]
  · have hdp' : (eraseTs s).dataPoints = eraseDataTs d :: ds.map eraseDataTs := by
      rw [eraseTs_dataPoints, hdp]
      rfl
    rw [hdp']
    simp only [eraseTs_period, List.length_cons, List.length_map]
    split_ifs with hc
    · simp [eraseTs, freshPoint, eraseDataTs, List.map_append]
    · simp [eraseTs, freshPoint, eraseDataTs, List.map_append]

theorem eraseAcc_mk (w : VWAPState) (ss : StrategyState) (rs : RiskState)
    (tr : List TradeRecord) (pk md : ℚ) (pb : Option Bar) (ix : ℕ) :
    eraseAcc ⟨w, ss, rs, tr, pk, md, pb, ix⟩ = ⟨eraseTs w, ss, rs, tr, pk, md, pb, ix⟩ := rfl

theorem processBar_erase (config : Config) (symbol : String) (ts : ℤ)
    (acc : BacktestAccum) (bar : Bar) :
    eraseAcc (processBar config symbol ts acc bar) =
      processBar config symbol 0 (eraseAcc acc) bar := by
  obtain ⟨w, ss, rs, tr, pk, md, pb, ix⟩ := acc
  rw [eraseAcc_mk]
  have hw : updateVWAP (eraseTs w) bar.closePrice bar.volume bar.highPrice bar.lowPrice 0 =
      eraseTs (updateVWAP w bar.closePrice bar.volume bar.highPrice bar.lowPrice ts) :=
    (updateVWAP_erase w bar.closePrice bar.volume bar.highPrice bar.lowPrice ts).symm
  have hz : updateVWAP (createVWAPState 0) bar.closePrice bar.volume bar.highPrice bar.lowPrice 0 =
      eraseTs (updateVWAP (createVWAPState 0) bar.closePrice bar.volume bar.highPrice bar.lowPrice ts) :=
    (updateVWAP_erase (createVWAPState 0) bar.closePrice bar.volume bar.highPrice bar.lowPrice ts).symm
  rcases pb with _ | prev
  · rcases hg : getVWAP (updateVWAP w bar.closePrice bar.volume bar.highPrice bar.lowPrice ts) with _ | cv
    · simp only [processBar, hw, getVWAP_erase, hg, eraseAcc_mk]
    · simp only [processBar, hw, getVWAP_erase, hg, eraseAcc_mk, evaluateStrategy_erase]
  · by_cases hd : getDate prev.timestamp ≠ getDate bar.timestamp ∧ config.strategy.vwap.period = 0
    · rcases hg : getVWAP (updateVWAP (createVWAPState 0) bar.closePrice bar.volume bar.highPrice bar.lowPrice ts) with _ | cv
      · simp only [processBar, if_pos hd, hz, getVWAP_erase, hg, eraseAcc_mk]
      · simp only [processBar, if_pos hd, hz, getVWAP_erase, hg, eraseAcc_mk, evaluateStrategy_erase]
    · rcases hg : getVWAP (updateVWAP w bar.closePrice bar.volume bar.highPrice bar.lowPrice ts) with _ | cv
      · simp only [processBar, if_neg hd, hw, getVWAP_erase, hg, eraseAcc_mk]
      · simp only [processBar, if_neg hd, hw, getVWAP_erase, hg, eraseAcc_mk, evaluateStrategy_erase]

theorem foldl_processBar_erase (config : Config) (symbol : String) (c : ℕ → ℤ)
    (bars : List Bar) (acc : BacktestAccum) :
    eraseAcc (bars.foldl (fun a b => processBar config symbol (c a.index) a b) acc) =
      bars.foldl (fun a b => processBar config symbol 0 a b) (eraseAcc acc) := by
  induction bars generalizing acc with
  | nil => rfl
  | cons b bs ih =>
      simp only [List.foldl_cons]
      rw [ih, processBar_erase]

theorem resultOfAccum_erase (a : BacktestAccum) :
    resultOfAccum (eraseAcc a) = resultOfAccum a := rfl

/-- C8: the replay driver is deterministic.  runBacktest is a pure
function of the bar list and the configuration: for any two wall clock
oracles (the Date.now() values stored into VWAP samples, the only
environmental input on the replay path), the full results, trade list,
total profit and maximum drawdown included, are identical; the randomized
debug logging of the source guards only logger calls that carry no state
and therefore cannot influence which trades are produced. -/
theorem C8_backtest_deterministic (symbol : String) (bars : List Bar)
    (config : Config) (clock1 clock2 : ℕ → ℤ) :
    runBacktest symbol bars config clock1 = runBacktest symbol bars config clock2 := by
  rcases bars with _ | ⟨b, bs⟩
  · rfl
  · unfold runBacktest runBacktestAccum
    have hinit : initialAccum config (b :: bs) clock2 = initialAccum config (b :: bs) clock1 := rfl
    rw [hinit]
    rw [← resultOfAccum_erase ((b :: bs).foldl (fun a c => processBar config symbol (clock1 a.index) a c) (initialAccum config (b :: bs) clock1)),
      ← resultOfAccum_erase ((b :: bs).foldl (fun a c => processBar config symbol (clock2 a.index) a c) (initialAccum config (b :: bs) clock1)),
      foldl_processBar_erase, foldl_processBar_erase]

/-- C5 as amended: with eleven additional 100 priced warm up bars
prepended (fourteen bars at 100 in total, so that the fourteen period ATR
and RSI are defined at the decision bar), the replay opens a long position
at price 95 on the first bar whose deviation from VWAP falls below minus
two percent, namely the first 95 bar, at its timestamp. -/
theorem C5_long_at_95_with_warmup :
    mlookup (runBacktestAccum symA barsWarm cfgA zeroClock).strategyState.positions symA =
      some { symbol := symA, side := .long, entryPrice := 95, quantity := 10,
             entryTime := 54840000, stopLoss := 95 * (1 - 1/100),
             takeProfit := 95 * (1 + 1/50), trailingStop := none } ∧
    mlookup (runBacktestAccum symA barsWarm cfgA zeroClock).riskState.positions symA =
      some { symbol := symA, entryPrice := 95, quantity := 10, entryTime := 54840000 } := by
  decide

end Scalper
